import Mathlib

/-!
Verification development for the claude-proxy request-bridging engine
(`claude-proxy/src/bridge.js`, `claude-proxy/src/server.js`,
`claude-proxy/src/claudeCodeCLI.js`).

The JavaScript source is shallowly embedded: JS objects become structures
whose optional properties are `Option` fields, JS truthiness tests on
strings/numbers become explicit helpers (`jsTruthyStr`, `jsOrStr`,
`jsOrNat`), asynchronous resolve/reject becomes an explicit sum result,
and wall-clock instants are passed as explicit `Nat` millisecond
parameters.  JS numbers are modelled as exact rationals.
-/

namespace ClaudeProxy

/-- A chat message, as in the `messages` arrays of `bridge.js`
(objects of shape `role`/`content`). -/
structure Message where
  role : String
  content : String
deriving DecidableEq, Repr

/-- Token usage object of an upstream response (`usage.input_tokens`,
`usage.output_tokens`). -/
structure Usage where
  input_tokens : Nat
  output_tokens : Nat
deriving DecidableEq, Repr

/-- One content segment of an upstream response
(objects of shape `type`/`text` in `response.content`). -/
structure ContentBlock where
  type : String
  text : String
deriving DecidableEq, Repr

/-- An upstream (Claude API shaped) response as produced by an adapter in
`executeWithRetry` and stored in the cache by `proxyRequest`.  `usage` is
optional because `proxyRequest` tests its truthiness (`response.usage`). -/
structure ClaudeResponse where
  content : List ContentBlock
  model : String
  usage : Option Usage
deriving DecidableEq, Repr

/-- An error value thrown by an adapter, with the three properties that
`isRetryableError` and the structured-error construction in
`proxyRequest` read (`error.status`, `error.code`, `error.message`).
Absent properties are `none`. -/
structure Err where
  status : Option Nat
  code : Option String
  message : Option String
deriving DecidableEq, Repr

/-- The flat configuration object assembled in the `ClaudeProxyBridge`
constructor (`this.options`): cache switch and TTL (seconds), retry
budget and base delay (ms), default token budget and default model. -/
structure BridgeOptions where
  cacheEnabled : Bool
  cacheTtl : Nat
  retryAttempts : Nat
  retryDelay : Nat
  maxTokens : ℚ
  defaultModel : String
deriving DecidableEq, Repr

/-- An inbound request to `proxyRequest`, i.e. the object
`{...req.body, requestId, headers}` built in `server.js`.  Only the
properties that `bridge.js` reads are modelled; `headers` stands for the
remaining opaque metadata carried along by object spread. -/
structure Request where
  model : Option String := none
  messages : Option (List Message) := none
  max_tokens : Option ℚ := none
  temperature : Option ℚ := none
  system : Option String := none
  stop_sequences : Option (List String) := none
  requestId : Option String := none
  method : Option String := none
  headers : List (String × String) := []
deriving DecidableEq, Repr

/-- The request object built by `transformToClaudeFormat` and handed to
the active adapter.  `requestId`, `method` and `headers` are the
`...otherParams` rest-spread that rides along unchanged. -/
structure ClaudeRequest where
  model : String
  max_tokens : ℚ
  temperature : ℚ
  messages : List Message
  system : Option String
  stop_sequences : Option (List String)
  requestId : Option String
  method : Option String
  headers : List (String × String)
deriving DecidableEq, Repr

/-- JS truthiness of an optional string property: `undefined` and the
empty string are falsy, every other string is truthy. -/
def jsTruthyStr : Option String → Bool
  | none => false
  | some s => !s.isEmpty

/-- JS `a || dflt` for an optional string property `a`. -/
def jsOrStr (a : Option String) (dflt : String) : String :=
  match a with
  | some s => if s.isEmpty then dflt else s
  | none => dflt

/-- JS `a || dflt` for an optional number property `a` (0 is falsy). -/
def jsOrNat (a : Option Nat) (dflt : Nat) : Nat :=
  match a with
  | some n => if n = 0 then dflt else n
  | none => dflt

/-- JS `a || b` on two optional string properties, as in
`direct_prompt || prompt`: the value of `a` when truthy, otherwise the
(possibly absent or falsy) value of `b`. -/
def jsOrOpt (a b : Option String) : Option String :=
  if jsTruthyStr a then a else b

/-- Whether the second character list is a prefix of the first. -/
def charsStartWith : List Char → List Char → Bool
  | _, [] => true
  | [], _ :: _ => false
  | c :: cs, d :: ds => c == d && charsStartWith cs ds

/-- Whether the second character list occurs inside the first. -/
def charsIncludes : List Char → List Char → Bool
  | [], pat => pat.isEmpty
  | c :: cs, pat => charsStartWith (c :: cs) pat || charsIncludes cs pat

/-- JS `s.includes(t)`: `t` occurs as a substring of `s` (every string
includes the empty string). -/
def strIncludes (s t : String) : Bool :=
  charsIncludes s.data t.data

/-- `ClaudeProxyBridge.isRetryableError` (bridge.js): an error is
retryable when its status is one of 429/500/502/503/504, its code is a
transport failure, or its message mentions a rate limit or timeout. -/
def isRetryableError (e : Err) : Bool :=
  (match e.status with
    | some s => [429, 500, 502, 503, 504].contains s
    | none => false) ||
  (match e.code with
    | some c => ["ECONNRESET", "ETIMEDOUT", "ENOTFOUND"].contains c
    | none => false) ||
  (match e.message with
    | some m => strIncludes m "rate limit"
    | none => false) ||
  (match e.message with
    | some m => strIncludes m "timeout"
    | none => false)

/-- Result of one adapter invocation: the promise either resolves with a
response or rejects with an error. -/
inductive AdapterResult where
  | ok (resp : ClaudeResponse)
  | error (e : Err)
deriving DecidableEq, Repr

/-- Recursion core of `ClaudeProxyBridge.executeWithRetry`.  The source
recurses on `attempt` guarded by `attempt < this.options.retryAttempts`;
here `remaining = retryAttempts - attempt` is the structural fuel, so
`remaining > 0` is exactly the source's guard.  The adapter is a
function of the (1-indexed) attempt number so that failure-injecting
stubs can be expressed.  Returns the final result, the number of adapter
invocations made, and the total backoff delay
(`retryDelay * 2 ^ (attempt - 1)` slept after each retried failure). -/
def retryGo (adapter : Nat → AdapterResult) (retryDelay : Nat) :
    (attempt : Nat) → (remaining : Nat) → AdapterResult × Nat × Nat
  | attempt, remaining =>
    match adapter attempt, remaining with
    | .ok r, _ => (.ok r, 1, 0)
    | .error e, 0 => (.error e, 1, 0)
    | .error e, rem + 1 =>
      if isRetryableError e then
        let rec_ := retryGo adapter retryDelay (attempt + 1) rem
        (rec_.1, rec_.2.1 + 1, rec_.2.2 + retryDelay * 2 ^ (attempt - 1))
      else (.error e, 1, 0)

/-- `ClaudeProxyBridge.executeWithRetry(claudeRequest, requestId)`: the
retry controller entered at attempt 1, hence with
`retryAttempts - 1` retries remaining. -/
def executeWithRetry (adapter : Nat → AdapterResult)
    (retryAttempts retryDelay : Nat) : AdapterResult × Nat × Nat :=
  retryGo adapter retryDelay 1 (retryAttempts - 1)

/-- Adapter stub for the retry claims: rejects with the fixed error `e`
on the first `n` invocations and resolves with `r` from invocation
`n + 1` on. -/
def failNStub (n : Nat) (e : Err) (r : ClaudeResponse) (attempt : Nat) :
    AdapterResult :=
  if attempt ≤ n then .error e else .ok r

/-! ### Cache (node-cache instance of the bridge)

The bridge's `NodeCache` is modelled as an association list of
`(key, value, expiry instant in ms)`.  `get` checks expiry passively on
read, `set` overwrites wholesale on the same key; periodic sweeping only
removes entries `get` would already refuse, so it is not modelled. -/

/-- One stored cache entry. -/
structure CacheEntry where
  key : String
  value : ClaudeResponse
  expiresAt : Nat
deriving DecidableEq, Repr

/-- `this.cache.get(cacheKey)` at wall-clock instant `now`. -/
def cacheGet (cache : List CacheEntry) (now : Nat) (key : String) :
    Option ClaudeResponse :=
  match cache.find? (fun e => e.key == key) with
  | some e => if now < e.expiresAt then some e.value else none
  | none => none

/-- `this.cache.set(cacheKey, response, ttl)` performed at instant
`setAt` with a TTL in seconds: the entry for `key` is overwritten
wholesale and expires `ttl * 1000` ms later. -/
def cacheSet (cache : List CacheEntry) (key : String)
    (v : ClaudeResponse) (setAt ttlSeconds : Nat) : List CacheEntry :=
  ⟨key, v, setAt + ttlSeconds * 1000⟩ :: cache.filter (fun e => e.key != key)

/-! ### Cache key (`ClaudeProxyBridge.generateCacheKey`)

`generateCacheKey` builds a `keyData` object with the five properties
`model` (defaulted via `request.model || this.options.defaultModel`),
`messages`, `max_tokens`, `temperature`, `system` taken raw from the
inbound request, serializes it with `JSON.stringify` (fixed insertion
order, `undefined` properties omitted), and keys the cache by
`claude_` + the first 16 hex chars of the SHA-256 of that string.  The
serialization is embedded field by field; the external `crypto` SHA-256
is modelled by `digest16`, an executable deterministic string digest
standing in for the hex-truncated hash (every theorem below depends only
on `digest16` being a function; counterexamples evaluate it at concrete
inputs). -/

/-- `JSON.stringify` of a plain string (the strings in play need no
escaping). -/
def jsonString (s : String) : String := "\"" ++ s ++ "\""

/-- Deterministic, injective serialization of a JS number modelled as a
rational: numerator and denominator of the normalized fraction.  Stands
in for `JSON.stringify`'s number formatting. -/
def jsonQ (q : ℚ) : String := toString q.num ++ "/" ++ toString q.den

/-- `JSON.stringify` of one message object. -/
def serializeMessage (m : Message) : String :=
  "\x7b\"role\":" ++ jsonString m.role ++
    ",\"content\":" ++ jsonString m.content ++ "\x7d"

/-- `JSON.stringify` of a messages array. -/
def serializeMessages (ms : List Message) : String :=
  "[" ++ String.intercalate "," (ms.map serializeMessage) ++ "]"

/-- A named JSON field, omitted when the property value is `undefined`
(`JSON.stringify` drops such properties). -/
def jsonField (name : String) (v : Option String) : List String :=
  match v with
  | some s => [jsonString name ++ ":" ++ s]
  | none => []

/-- `JSON.stringify(keyData)` for the `keyData` object of
`generateCacheKey`: the five cache-relevant fields in fixed insertion
order, absent properties omitted. -/
def serializeKeyData (opts : BridgeOptions) (r : Request) : String :=
  let fields :=
    jsonField "model" (some (jsonString (jsOrStr r.model opts.defaultModel))) ++
    jsonField "messages" (r.messages.map serializeMessages) ++
    jsonField "max_tokens" (r.max_tokens.map jsonQ) ++
    jsonField "temperature" (r.temperature.map jsonQ) ++
    jsonField "system" (r.system.map jsonString)
  "\x7b" ++ String.intercalate "," fields ++ "\x7d"

/-- One hex digit. -/
def hexDigit (n : Nat) : Char :=
  Char.ofNat (if n < 10 then 48 + n else 87 + n)

/-- Little-endian list of `k` hex digits of `n`. -/
def hexDigitsRev : Nat → Nat → List Char
  | 0, _ => []
  | k + 1, n => hexDigit (n % 16) :: hexDigitsRev k (n / 16)

/-- Executable 16-hex-char digest of a string: a 64-bit polynomial
rolling hash rendered in hex.  Deterministic model of the truncated
SHA-256 hex digest produced by node's `crypto` module. -/
def digest16 (s : String) : String :=
  let h := s.data.foldl (fun a c => (a * 131 + c.toNat) % 2 ^ 64) 5381
  String.mk (hexDigitsRev 16 h).reverse

/-- `ClaudeProxyBridge.generateCacheKey(request)`. -/
def generateCacheKey (opts : BridgeOptions) (r : Request) : String :=
  "claude_" ++ digest16 (serializeKeyData opts r)

/-! ### Request normalization -/

/-- `ClaudeProxyBridge.transformToClaudeFormat(request)`: destructuring
defaults (applied only to absent properties), token budget capped at
8192, temperature clamped into `[0, 1]`, `messages || []`, `system`
attached only when truthy, `stop_sequences` attached when defined (a JS
array is truthy even when empty), and the remaining properties spread
through unchanged. -/
def transformToClaudeFormat (opts : BridgeOptions) (r : Request) :
    ClaudeRequest where
  model := r.model.getD opts.defaultModel
  max_tokens := min (r.max_tokens.getD opts.maxTokens) 8192
  temperature := max 0 (min 1 (r.temperature.getD (3 / 10)))
  messages := r.messages.getD []
  system := match r.system with
    | some s => if s.isEmpty then none else some s
    | none => none
  stop_sequences := r.stop_sequences
  requestId := r.requestId
  method := r.method
  headers := r.headers

/-- A CI-automation (GitHub Actions) dialect payload, with the
properties `transformGitHubActionsRequest` destructures. -/
structure GHRequest where
  prompt : Option String := none
  direct_prompt : Option String := none
  model : Option String := none
  max_tokens : Option ℚ := none
  temperature : Option ℚ := none
  system_prompt : Option String := none
  context : Option String := none
  action : Option String := none
deriving DecidableEq, Repr

/-- The request object returned by `transformGitHubActionsRequest`. -/
structure GHCanonical where
  model : String
  max_tokens : ℚ
  temperature : ℚ
  messages : List Message
  action : String
deriving DecidableEq, Repr

/-- `ClaudeProxyBridge.transformGitHubActionsRequest(ghRequest)`: pushes
onto `messages`, in order, a system message when `system_prompt` is
truthy, a `Context: …` user message when `context` is truthy, and a user
message with `direct_prompt || prompt` when that value is truthy; the
function is total and returns a request object in every case. -/
def transformGitHubActionsRequest (opts : BridgeOptions) (gh : GHRequest) :
    GHCanonical :=
  let messages : List Message := []
  let messages := if jsTruthyStr gh.system_prompt
    then messages ++ [⟨"system", gh.system_prompt.getD ""⟩] else messages
  let messages := if jsTruthyStr gh.context
    then messages ++ [⟨"user", "Context: " ++ gh.context.getD ""⟩] else messages
  let mainPrompt := jsOrOpt gh.direct_prompt gh.prompt
  let messages := if jsTruthyStr mainPrompt
    then messages ++ [⟨"user", mainPrompt.getD ""⟩] else messages
  { model := gh.model.getD opts.defaultModel
    max_tokens := gh.max_tokens.getD opts.maxTokens
    temperature := gh.temperature.getD (3 / 10)
    messages := messages
    action := gh.action.getD "chat" }

/-! ### Metrics and the main request path -/

/-- `this.metrics` of the bridge. -/
structure Metrics where
  requests : Nat
  cacheHits : Nat
  cacheMisses : Nat
  errors : Nat
  totalTokens : Nat
  averageResponseTime : ℚ
  lastRequestTime : Option Nat
deriving DecidableEq, Repr

/-- The metrics object initialized in the constructor. -/
def initialMetrics : Metrics :=
  ⟨0, 0, 0, 0, 0, 0, none⟩

/-- `ClaudeProxyBridge.updateMetrics(response, responseTime)`: adds the
token usage when present, then recomputes the running average as
`(currentAvg * (requests - 1) + responseTime) / requests` where
`requests` is the bridge-wide request counter. -/
def updateMetrics (m : Metrics) (resp : ClaudeResponse)
    (responseTime : ℚ) : Metrics :=
  let m1 := match resp.usage with
    | some u =>
      { m with totalTokens := m.totalTokens + u.input_tokens + u.output_tokens }
    | none => m
  { m1 with averageResponseTime :=
      (m1.averageResponseTime * ((m1.requests : ℚ) - 1) + responseTime) /
        (m1.requests : ℚ) }

/-- The metadata object passed to `formatResponse`: either
`{fromCache: true}` on the cache-hit path or
`{requestId, responseTime}` on the fresh path. -/
structure FormatMeta where
  fromCache : Option Bool
  requestId : Option String
  responseTime : Option Nat
deriving DecidableEq, Repr

/-- The object `formatResponse` returns to the caller: the upstream
response spread together with the metadata and a fresh timestamp. -/
structure FormattedResponse where
  response : ClaudeResponse
  fromCache : Option Bool
  requestId : Option String
  responseTime : Option Nat
  timestamp : Nat
deriving DecidableEq, Repr

/-- `ClaudeProxyBridge.formatResponse(response, metadata)` evaluated
when the wall clock reads `ts`. -/
def formatResponse (resp : ClaudeResponse) (md : FormatMeta) (ts : Nat) :
    FormattedResponse :=
  { response := resp
    fromCache := md.fromCache
    requestId := md.requestId
    responseTime := md.responseTime
    timestamp := ts }

/-- The structured error object thrown across the bridge boundary by
`proxyRequest`. -/
structure StructuredError where
  status : Nat
  message : String
  requestId : Option String
  responseTime : Nat
  retryable : Bool
deriving DecidableEq, Repr

/-- Outcome of one `proxyRequest` call: resolution or rejection. -/
inductive CallResult where
  | ok (resp : FormattedResponse)
  | error (e : StructuredError)
deriving DecidableEq, Repr

/-- Mutable bridge state shared across calls: the cache contents and the
metrics object. -/
structure BridgeState where
  cache : List CacheEntry
  metrics : Metrics
deriving DecidableEq, Repr

/-- Everything one `proxyRequest` call produces: its result, the bridge
state afterwards, how many times the adapter was invoked, and, for
observation, the transformed request forwarded to the adapter (`none`
when the call was served from the cache). -/
structure CallOutcome where
  result : CallResult
  state : BridgeState
  invocations : Nat
  forwarded : Option ClaudeRequest
deriving Repr

/-- `ClaudeProxyBridge.proxyRequest(request)`, entered when the wall
clock reads `now` and taking `elapsed` ms until the adapter resolves
(the source's `responseTime = Date.now() - startTime`).  The adapter is
a function of the transformed request and the attempt number.  Mirrors
the source order: request counter bump, cache lookup for non-POST calls
(hit: hit counter bump and a `fromCache` response without touching the
adapter; miss: miss counter bump), transformation, retry-wrapped adapter
execution, then on success metrics update and a cache write when the
response carries usage, and on failure an error counter bump and a
structured error with the `retryable` classification. -/
def proxyRequest (opts : BridgeOptions)
    (adapter : ClaudeRequest → Nat → AdapterResult)
    (now elapsed : Nat) (req : Request) (st : BridgeState) : CallOutcome :=
  let m1 : Metrics :=
    { st.metrics with requests := st.metrics.requests + 1,
                      lastRequestTime := some now }
  let key := generateCacheKey opts req
  let consultCache := opts.cacheEnabled ∧ req.method ≠ some "POST"
  let hit : Option ClaudeResponse :=
    if consultCache then cacheGet st.cache now key else none
  match hit with
  | some cached =>
    { result := .ok (formatResponse cached ⟨some true, none, none⟩ now)
      state := { cache := st.cache
                 metrics := { m1 with cacheHits := m1.cacheHits + 1 } }
      invocations := 0
      forwarded := none }
  | none =>
    let m2 := if consultCache
      then { m1 with cacheMisses := m1.cacheMisses + 1 } else m1
    let creq := transformToClaudeFormat opts req
    let run := executeWithRetry (adapter creq) opts.retryAttempts opts.retryDelay
    match run.1 with
    | .ok response =>
      let m3 := updateMetrics m2 response (elapsed : ℚ)
      let newCache := if opts.cacheEnabled ∧ response.usage.isSome
        then cacheSet st.cache key response (now + elapsed) opts.cacheTtl
        else st.cache
      { result := .ok (formatResponse response
          ⟨none, req.requestId, some elapsed⟩ (now + elapsed))
        state := { cache := newCache, metrics := m3 }
        invocations := run.2.1
        forwarded := some creq }
    | .error e =>
      { result := .error
          { status := jsOrNat e.status 500
            message := jsOrStr e.message "Request failed"
            requestId := req.requestId
            responseTime := elapsed
            retryable := isRetryableError e }
        state := { cache := st.cache
                   metrics := { m2 with errors := m2.errors + 1 } }
        invocations := run.2.1
        forwarded := some creq }

/-! ### Streaming relay (`proxyRequestStream` / `executeStreamWithRetry`)

An adapter's streaming behaviour on one attempt is the list of raw
protocol events it emits before it either completes normally or rejects.
`streamAnthropicAPI` translates raw events into `onChunk(text, kind)`
calls: `message_start` becomes a `start` event, a `content_block_delta`
becomes a `content` event when its text is nonempty, and `message_stop`
becomes a `stop` event.  The trace of `onChunk` calls is collected as a
list. -/

/-- Kind tag of an `onChunk` call. -/
inductive EventKind where
  | start
  | content
  | stop
  | error
deriving DecidableEq, Repr

/-- One `onChunk(text, kind)` call observed by the caller. -/
structure Chunk where
  text : String
  kind : EventKind
deriving DecidableEq, Repr

/-- A raw upstream stream event. -/
inductive RawEvent where
  | messageStart
  | contentDelta (text : String)
  | messageStop
deriving DecidableEq, Repr

/-- What the streaming adapter does on one attempt: the raw events it
emits, then `none` for normal completion or `some e` for a rejection
after the last event. -/
structure StreamAttempt where
  events : List RawEvent
  failure : Option Err
deriving Repr

/-- Translation of one raw event into `onChunk` calls, as performed by
the loop body of `streamAnthropicAPI`: empty delta texts are dropped
(`if (text)`). -/
def translateRaw : RawEvent → List Chunk
  | .messageStart => [⟨"", .start⟩]
  | .contentDelta t => if t.isEmpty then [] else [⟨t, .content⟩]
  | .messageStop => [⟨"", .stop⟩]

/-- The `onChunk` trace produced by `streamAnthropicAPI` for the events
of one attempt. -/
def streamTrace (events : List RawEvent) : List Chunk :=
  (events.map translateRaw).flatten

/-- Recursion core of `ClaudeProxyBridge.executeStreamWithRetry`, with
`remaining = retryAttempts - attempt` as structural fuel exactly as in
`retryGo`.  Returns the concatenated `onChunk` trace over all attempts
made, the propagated error if the final attempt rejected, and the number
of adapter invocations.  Chunks emitted by an attempt before it rejects
have already reached the caller, so a retried attempt's chunks stay in
the trace. -/
def streamRetryGo (adapterS : Nat → StreamAttempt) :
    (attempt : Nat) → (remaining : Nat) → List Chunk × Option Err × Nat
  | attempt, remaining =>
    match (adapterS attempt).failure, remaining with
    | none, _ => (streamTrace (adapterS attempt).events, none, 1)
    | some e, 0 => (streamTrace (adapterS attempt).events, some e, 1)
    | some e, rem + 1 =>
      if isRetryableError e then
        let rec_ := streamRetryGo adapterS (attempt + 1) rem
        (streamTrace (adapterS attempt).events ++ rec_.1, rec_.2.1,
          rec_.2.2 + 1)
      else (streamTrace (adapterS attempt).events, some e, 1)

/-- `ClaudeProxyBridge.executeStreamWithRetry(claudeRequest, requestId,
onChunk)` entered at attempt 1. -/
def executeStreamWithRetry (adapterS : Nat → StreamAttempt)
    (retryAttempts : Nat) : List Chunk × Option Err × Nat :=
  streamRetryGo adapterS 1 (retryAttempts - 1)

/-- `ClaudeProxyBridge.proxyRequestStream(request, onChunk)`: drives the
retry-wrapped stream; when the stream ultimately rejects, one final
`onChunk('ERROR: ' + message, 'error')` is sent before the structured
error is thrown.  Returns the full `onChunk` trace, whether the call
succeeded, and the number of adapter invocations. -/
def proxyRequestStream (adapterS : Nat → StreamAttempt)
    (retryAttempts : Nat) : List Chunk × Bool × Nat :=
  let run := executeStreamWithRetry adapterS retryAttempts
  match run.2.1 with
  | none => (run.1, true, run.2.2)
  | some e =>
    (run.1 ++ [⟨"ERROR: " ++ jsOrStr e.message "Stream failed", .error⟩],
      false, run.2.2)

/-- Whether an `onChunk` call is a terminal event. -/
def isTerminal (c : Chunk) : Bool :=
  c.kind == .stop || c.kind == .error

/-- The terminal events of a trace. -/
def terminals (l : List Chunk) : List Chunk :=
  l.filter isTerminal

/-- The content texts of a trace, in order. -/
def contentTexts (l : List Chunk) : List String :=
  (l.filter (fun c => c.kind == .content)).map Chunk.text

/-- Streaming adapter stub for the relay claim: on each of the first
`fails` attempts it emits `message_start` and the content chunks
`perChunks k`, then rejects with `errs k` before any `message_stop`; on
attempt `fails + 1` it emits `message_start`, the content chunks, and a
final `message_stop`, completing normally. -/
def streamStub (fails : Nat) (perChunks : Nat → List String)
    (errs : Nat → Err) (k : Nat) : StreamAttempt :=
  if k ≤ fails then
    ⟨.messageStart :: (perChunks k).map .contentDelta, some (errs k)⟩
  else
    ⟨.messageStart :: (perChunks k).map .contentDelta ++ [.messageStop], none⟩

/-! ### Backend selection (`initializeAuthMethods`)

`initializeAuthMethods` runs once in the constructor and pins
`this.authMethod` for the process lifetime.  Its environment is the five
boolean facts it can observe: whether an API credential is configured,
whether the SDK module import and construction succeed, what the SDK's
`isAvailable()` reports, whether the CLI module import succeeds, and
what `ClaudeCodeCLI.isAvailable()` (a `which claude` probe,
claudeCodeCLI.js) would report. -/

/-- Startup environment observed by backend selection. -/
structure AuthEnv where
  hasApiKey : Bool
  sdkImportOk : Bool
  sdkAvailable : Bool
  cliImportOk : Bool
  cliAvailable : Bool
deriving DecidableEq, Repr

/-- The pinned backend. -/
inductive AuthMethod where
  | api
  | sdk
  | cli
  | none
deriving DecidableEq, Repr

/-- `ClaudeProxyBridge.initializeAuthMethods()`: API key first; else the
SDK when its module loads and reports available; else the CLI as soon as
its module loads — the code sets `this.authMethod = 'cli'` right after
the import, without consulting `ClaudeCodeCLI.isAvailable()`; else
`none`. -/
def initializeAuthMethods (env : AuthEnv) : AuthMethod :=
  if env.hasApiKey then .api
  else if env.sdkImportOk && env.sdkAvailable then .sdk
  else if env.cliImportOk then .cli
  else .none

/-- Modelled from the spec: the backend-selection contract of
section 4.1 — DirectAPI iff a credential is configured, else
InProcessSDK iff the SDK module loads and reports available, else
ExternalProcess iff the external command resolves on the execution path,
else None.  Written from the spec's words to compare against
`initializeAuthMethods`. -/
def specSelectBackend (env : AuthEnv) : AuthMethod :=
  if env.hasApiKey then .api
  else if env.sdkImportOk && env.sdkAvailable then .sdk
  else if env.cliAvailable then .cli
  else .none

/-! ### Auxiliary definitions used by the theorems -/

/-- Fixed-order message synthesis for the CI-automation dialect, written
out as the concatenation of its three optional parts: system-preamble
message, context message, then the primary instruction
(`direct_prompt || prompt`) when that value is truthy. -/
def ghMessagesSynthesis (gh : GHRequest) : List Message :=
  (if jsTruthyStr gh.system_prompt
    then [⟨"system", gh.system_prompt.getD ""⟩] else []) ++
  (if jsTruthyStr gh.context
    then [⟨"user", "Context: " ++ gh.context.getD ""⟩] else []) ++
  (if jsTruthyStr (jsOrOpt gh.direct_prompt gh.prompt)
    then [⟨"user", (jsOrOpt gh.direct_prompt gh.prompt).getD ""⟩] else [])

/-- The metrics evolution of an uninterrupted sequence of successful,
non-cached `proxyRequest` calls: each call bumps the request counter and
then records its latency through `updateMetrics`. -/
def recordLatencies (resp : ClaudeResponse) (samples : List ℚ)
    (m : Metrics) : Metrics :=
  samples.foldl
    (fun acc s => updateMetrics { acc with requests := acc.requests + 1 } resp s)
    m

/-- A transient (retryable) upstream error: HTTP 429. -/
def errTransient : Err := ⟨some 429, none, none⟩

/-- A fatal authentication error: HTTP 401, no transport code, a message
mentioning neither a rate limit nor a timeout. -/
def errFatal : Err := ⟨some 401, none, some "authentication_error"⟩

/-- Concrete upstream response used by witnesses. -/
def respW : ClaudeResponse := ⟨[⟨"text", "hello"⟩], "m1", some ⟨3, 5⟩⟩

/-- Concrete bridge configuration used by witnesses: cache on, 300 s
TTL, 3 attempts, 1000 ms base delay, 4096 default token budget. -/
def optsW : BridgeOptions := ⟨true, 300, 3, 1000, 4096, "m-default"⟩

/-- Concrete inbound request used by witnesses. -/
def reqW : Request :=
  { model := some "m1", messages := some [⟨"user", "hi"⟩],
    max_tokens := some 50, requestId := some "req_1" }

/-- Fresh bridge state: empty cache, zeroed metrics. -/
def stEmpty : BridgeState := ⟨[], initialMetrics⟩

/-- `reqW` asking for an oversized token budget and an out-of-range
temperature. -/
def reqBig : Request :=
  { reqW with max_tokens := some 999999, temperature := some (7 / 2) }

/-- `reqW` with different correlation id, headers, an explicit (empty)
stop-sequence list and no method — the cache-irrelevant metadata. -/
def reqWMeta : Request :=
  { reqW with requestId := some "req_other",
              headers := [("x-github-repository", "owner/repo")],
              stop_sequences := some [] }

/-- `reqW` asking for 9000 tokens (above the 8192 ceiling). -/
def reqK1 : Request := { reqW with max_tokens := some 9000 }

/-- `reqW` asking for 10000 tokens (above the 8192 ceiling). -/
def reqK2 : Request := { reqW with max_tokens := some 10000 }

/-- A second request with different message content (distinct cache
key from `reqW`). -/
def reqW2 : Request :=
  { model := some "m1", messages := some [⟨"user", "yo"⟩],
    max_tokens := some 50 }

/-- A CI-automation payload exercising every optional field. -/
def ghW : GHRequest :=
  { prompt := some "p", direct_prompt := some "dp",
    system_prompt := some "sys", context := some "ctx" }

/-- First call of the metrics scenario: fresh state, backend miss,
latency 100 ms. -/
def c9Run1 : CallOutcome :=
  proxyRequest optsW (fun _ _ => .ok respW) 0 100 reqW stEmpty

/-- Second call of the metrics scenario: identical request 200 ms later,
served from cache (no latency sample recorded). -/
def c9Run2 : CallOutcome :=
  proxyRequest optsW (fun _ _ => .ok respW) 200 5 reqW c9Run1.state

/-- Third call of the metrics scenario: different request, backend miss,
latency 200 ms. -/
def c9Run3 : CallOutcome :=
  proxyRequest optsW (fun _ _ => .ok respW) 300 200 reqW2 c9Run2.state

/-! ## Theorems -/

/-- Closed form of the backoff sum `sum(base * 2 ^ (k - 1) for k in 1..n)`. -/
lemma sum_pow_Icc (base n : ℕ) :
    Finset.sum (Finset.Icc 1 n) (fun k => base * 2 ^ (k - 1)) =
      base * (2 ^ n - 1) := by
  induction n with
  | zero => simp
  | succ n ih =>
    rw [Finset.sum_Icc_succ_top (by omega : 1 ≤ n + 1), ih]
    have h1 : 1 ≤ 2 ^ n := Nat.one_le_two_pow
    have h2 : (2 : ℕ) ^ (n + 1) = 2 ^ n * 2 := pow_succ 2 n
    simp only [Nat.add_sub_cancel]
    rw [← Nat.mul_add]
    congr 1
    omega

/-- Running the retry controller against `failNStub n` from attempt `a`
with enough budget to reach attempt `n + 1`: it succeeds after
`n + 2 - a` invocations with total backoff `base * (2 ^ n - 2 ^ (a - 1))`. -/
lemma retryGo_failNStub_ok (n base : ℕ) (e : Err) (r : ClaudeResponse)
    (hret : isRetryableError e = true) :
    ∀ rem a, 1 ≤ a → a ≤ n + 1 → n + 1 ≤ a + rem →
      retryGo (failNStub n e r) base a rem =
        (.ok r, n + 2 - a, base * (2 ^ n - 2 ^ (a - 1))) := by
  intro rem
  induction rem with
  | zero =>
    intro a h1 h2 h3
    have ha : a = n + 1 := by omega
    subst ha
    have hstub : failNStub n e r (n + 1) = .ok r := by simp [failNStub]
    rw [retryGo.eq_def]
    simp only [hstub]
    refine congrArg (Prod.mk (AdapterResult.ok r)) ?_
    refine congrArg₂ Prod.mk (by omega) ?_
    simp

  | succ rem ih =>
    intro a h1 h2 h3
    by_cases hfail : a ≤ n
    · have hstub : failNStub n e r a = .error e := by simp [failNStub, hfail]
      rw [retryGo.eq_def]
      simp only [hstub, hret, if_true]
      rw [ih (a + 1) (by omega) (by omega) (by omega)]
      dsimp only
      have hpow : (2 : ℕ) ^ a = 2 ^ (a - 1) * 2 := by
        rw [← pow_succ]
        congr 1
        omega
      have hle : (2 : ℕ) ^ a ≤ 2 ^ n := Nat.pow_le_pow_right (by omega) hfail
      refine congrArg (Prod.mk (AdapterResult.ok r)) ?_
      refine congrArg₂ Prod.mk (by omega) ?_
      simp only [Nat.add_sub_cancel]
      rw [← Nat.mul_add]
      congr 1
      omega
    · have ha : a = n + 1 := by omega
      subst ha
      have hstub : failNStub n e r (n + 1) = .ok r := by simp [failNStub]
      rw [retryGo.eq_def]
      simp only [hstub]
      refine congrArg (Prod.mk (AdapterResult.ok r)) ?_
      refine congrArg₂ Prod.mk (by omega) ?_
      simp

/-- Running the retry controller against `failNStub n` from attempt `a`
with a budget exhausted before attempt `n + 1`: every attempt fails, the
final error propagates after `rem + 1` invocations. -/
lemma retryGo_failNStub_exhaust (n base : ℕ) (e : Err) (r : ClaudeResponse)
    (hret : isRetryableError e = true) :
    ∀ rem a, 1 ≤ a → a + rem ≤ n →
      retryGo (failNStub n e r) base a rem =
        (.error e, rem + 1, base * (2 ^ (a + rem - 1) - 2 ^ (a - 1))) := by
  intro rem
  induction rem with
  | zero =>
    intro a h1 h2
    have hstub : failNStub n e r a = .error e := by
      simp [failNStub, show a ≤ n by omega]
    rw [retryGo.eq_def]
    simp only [hstub]
    refine congrArg (Prod.mk (AdapterResult.error e)) ?_
    refine congrArg₂ Prod.mk rfl ?_
    simp [Nat.add_zero]
  | succ rem ih =>
    intro a h1 h2
    have hstub : failNStub n e r a = .error e := by
      simp [failNStub, show a ≤ n by omega]
    rw [retryGo.eq_def]
    simp only [hstub, hret, if_true]
    rw [ih (a + 1) (by omega) (by omega)]
    dsimp only
    have hpow : (2 : ℕ) ^ a = 2 ^ (a - 1) * 2 := by
      rw [← pow_succ]
      congr 1
      omega
    have hle : (2 : ℕ) ^ a ≤ 2 ^ (a + rem) := Nat.pow_le_pow_right (by omega) (by omega)
    refine congrArg (Prod.mk (AdapterResult.error e)) ?_
    refine congrArg₂ Prod.mk (by omega) ?_
    have hidx1 : a + 1 + rem - 1 = a + rem := by omega
    have hidx2 : a + 1 - 1 = a := by omega
    have hidx3 : a + (rem + 1) - 1 = a + rem := by omega
    rw [hidx1, hidx2, hidx3, ← Nat.mul_add]
    congr 1
    omega

/-- An adapter that always rejects with a fatal error is invoked exactly
once, whatever the budget. -/
lemma retryGo_const_fatal (e : Err) (hfatal : isRetryableError e = false)
    (base a rem : ℕ) :
    retryGo (fun _ => .error e) base a rem = (.error e, 1, 0) := by
  rw [retryGo.eq_def]
  cases rem <;> simp [hfatal]

/-- The retry controller always invokes the adapter at least once. -/
lemma retryGo_invocations_pos (ad : Nat → AdapterResult) (base a rem : ℕ) :
    1 ≤ (retryGo ad base a rem).2.1 := by
  rw [retryGo.eq_def]
  rcases h : ad a with r | e <;> cases rem <;> simp [h]
  split <;> simp

lemma updateMetrics_requests (m : Metrics) (r : ClaudeResponse) (s : ℚ) :
    (updateMetrics m r s).requests = m.requests := by
  cases h : r.usage <;> simp [updateMetrics, h]

lemma updateMetrics_cacheHits (m : Metrics) (r : ClaudeResponse) (s : ℚ) :
    (updateMetrics m r s).cacheHits = m.cacheHits := by
  cases h : r.usage <;> simp [updateMetrics, h]

/-- `proxyRequest` on a cache hit: with the cache enabled, a non-POST
call, and a live entry for the request's key, the call returns the
cached response wrapped with `fromCache`, bumps the hit counter, leaves
the cache untouched, and never reaches the adapter. -/
lemma proxyRequest_hit_eq (opts : BridgeOptions)
    (adapter : ClaudeRequest → Nat → AdapterResult) (now elapsed : Nat)
    (req : Request) (st : BridgeState) (c : ClaudeResponse)
    (h1 : opts.cacheEnabled = true) (h2 : req.method ≠ some "POST")
    (hhit : cacheGet st.cache now (generateCacheKey opts req) = some c) :
    proxyRequest opts adapter now elapsed req st =
      { result := .ok (formatResponse c ⟨some true, none, none⟩ now)
        state := { cache := st.cache
                   metrics := { st.metrics with
                     requests := st.metrics.requests + 1
                     lastRequestTime := some now
                     cacheHits := st.metrics.cacheHits + 1 } }
        invocations := 0
        forwarded := none } := by
  simp only [proxyRequest, h1, h2, hhit, ne_eq, not_false_iff, and_self,
    if_true, true_and]

/-- `proxyRequest` on a cache miss whose retry-wrapped execution fails:
the structured error carries the `retryable` classification, the adapter
was invoked as many times as the retry controller reports, and the
cache is left exactly as it was. -/
lemma proxyRequest_miss_error_eq (opts : BridgeOptions)
    (adapter : ClaudeRequest → Nat → AdapterResult) (now elapsed : Nat)
    (req : Request) (st : BridgeState) (e : Err)
    (hmiss : cacheGet st.cache now (generateCacheKey opts req) = none)
    (hrun : (executeWithRetry (adapter (transformToClaudeFormat opts req))
        opts.retryAttempts opts.retryDelay).1 = .error e) :
    (proxyRequest opts adapter now elapsed req st).result =
      .error ⟨jsOrNat e.status 500, jsOrStr e.message "Request failed",
        req.requestId, elapsed, isRetryableError e⟩ ∧
    (proxyRequest opts adapter now elapsed req st).invocations =
      (executeWithRetry (adapter (transformToClaudeFormat opts req))
        opts.retryAttempts opts.retryDelay).2.1 ∧
    (proxyRequest opts adapter now elapsed req st).state.cache = st.cache ∧
    (proxyRequest opts adapter now elapsed req st).forwarded =
      some (transformToClaudeFormat opts req) := by
  by_cases hc : opts.cacheEnabled = true ∧ req.method ≠ some "POST" <;>
    simp only [proxyRequest, hc, if_true, if_false, hmiss, hrun] <;>
    simp

/-- `proxyRequest` on a cache miss whose retry-wrapped execution
succeeds: the response is returned with the fresh-path metadata, the
cache gains the entry exactly when caching is on and the response
carries usage, the hit counter is untouched, and the transformed request
was forwarded to the adapter. -/
lemma proxyRequest_miss_ok_eq (opts : BridgeOptions)
    (adapter : ClaudeRequest → Nat → AdapterResult) (now elapsed : Nat)
    (req : Request) (st : BridgeState) (response : ClaudeResponse)
    (hmiss : cacheGet st.cache now (generateCacheKey opts req) = none)
    (hrun : (executeWithRetry (adapter (transformToClaudeFormat opts req))
        opts.retryAttempts opts.retryDelay).1 = .ok response) :
    (proxyRequest opts adapter now elapsed req st).result =
      .ok (formatResponse response ⟨none, req.requestId, some elapsed⟩
        (now + elapsed)) ∧
    (proxyRequest opts adapter now elapsed req st).state.cache =
      (if opts.cacheEnabled = true ∧ response.usage.isSome = true
        then cacheSet st.cache (generateCacheKey opts req) response
          (now + elapsed) opts.cacheTtl
        else st.cache) ∧
    (proxyRequest opts adapter now elapsed req st).invocations =
      (executeWithRetry (adapter (transformToClaudeFormat opts req))
        opts.retryAttempts opts.retryDelay).2.1 ∧
    (proxyRequest opts adapter now elapsed req st).state.metrics.cacheHits =
      st.metrics.cacheHits ∧
    (proxyRequest opts adapter now elapsed req st).forwarded =
      some (transformToClaudeFormat opts req) := by
  by_cases hc : opts.cacheEnabled = true ∧ req.method ≠ some "POST" <;>
    simp only [proxyRequest, hc, if_true, if_false, hmiss, hrun] <;>
    simp [updateMetrics_cacheHits] <;>
    split <;> rfl

/-- Whatever `proxyRequest` forwarded to the adapter is the transformed
request. -/
lemma proxyRequest_forwarded_eq (opts : BridgeOptions)
    (adapter : ClaudeRequest → Nat → AdapterResult) (now elapsed : Nat)
    (req : Request) (st : BridgeState) (creq : ClaudeRequest)
    (h : (proxyRequest opts adapter now elapsed req st).forwarded = some creq) :
    creq = transformToClaudeFormat opts req := by
  simp only [proxyRequest] at h
  split at h
  · simp at h
  · split at h <;> simp_all

/-- `claim C2` — lemma combining the two budget regimes follows below as
the claim theorem; this lemma gives the `invocations` lower bound used
by claim C10. -/
lemma proxyRequest_miss_invocations_pos (opts : BridgeOptions)
    (adapter : ClaudeRequest → Nat → AdapterResult) (now elapsed : Nat)
    (req : Request) (st : BridgeState)
    (hmiss : cacheGet st.cache now (generateCacheKey opts req) = none) :
    1 ≤ (proxyRequest opts adapter now elapsed req st).invocations := by
  have hpos := retryGo_invocations_pos
    (adapter (transformToClaudeFormat opts req)) opts.retryDelay 1
    (opts.retryAttempts - 1)
  by_cases hc : opts.cacheEnabled = true ∧ req.method ≠ some "POST"
  · simp only [proxyRequest, if_pos hc, hmiss]
    split <;> simpa [executeWithRetry] using hpos
  · simp only [proxyRequest, if_neg hc]
    split <;> simpa [executeWithRetry] using hpos

/-- A `proxyRequest` call that rejects leaves the cache exactly as it
found it (the only `cache.set` sits on the success path). -/
lemma proxyRequest_error_cache_unchanged (opts : BridgeOptions)
    (ad : ClaudeRequest → Nat → AdapterResult) (now elapsed : Nat)
    (req : Request) (st : BridgeState) (se : StructuredError)
    (hfail : (proxyRequest opts ad now elapsed req st).result = .error se) :
    (proxyRequest opts ad now elapsed req st).state.cache = st.cache := by
  by_cases hc : opts.cacheEnabled = true ∧ req.method ≠ some "POST"
  · cases hhit : cacheGet st.cache now (generateCacheKey opts req) with
    | some c =>
      rw [proxyRequest_hit_eq opts ad now elapsed req st c hc.1 hc.2 hhit]
        at hfail
      simp at hfail
    | none =>
      cases hrun : (executeWithRetry (ad (transformToClaudeFormat opts req))
          opts.retryAttempts opts.retryDelay).1 with
      | ok resp =>
        have hok := (proxyRequest_miss_ok_eq opts ad now elapsed req st resp
          hhit hrun).1
        rw [hok] at hfail
        simp at hfail
      | error e =>
        exact (proxyRequest_miss_error_eq opts ad now elapsed req st e hhit
          hrun).2.2.1
  · simp only [proxyRequest, if_neg hc] at hfail ⊢
    cases hrun : (executeWithRetry (ad (transformToClaudeFormat opts req))
        opts.retryAttempts opts.retryDelay).1 with
    | ok resp =>
      simp only [hrun] at hfail
      simp at hfail
    | error e =>
      simp only [hrun]

/-- Claim C2: against an adapter stub that fails with a transient error
on its first `n` invocations and succeeds on invocation `n + 1`, the
retry controller with budget `maxAttempts > n` returns the successful
response after exactly `n + 1` invocations with total backoff delay
`sum(base * 2 ^ (k - 1) for k in 1..n)`; with budget `maxAttempts ≤ n`
it propagates the underlying (still retryable) error after exactly
`maxAttempts` invocations. -/
theorem claim_C2_retry (n maxAttempts base : ℕ) (e : Err)
    (r : ClaudeResponse) (hret : isRetryableError e = true)
    (hpos : 1 ≤ maxAttempts) :
    (n < maxAttempts →
      executeWithRetry (failNStub n e r) maxAttempts base =
        (.ok r, n + 1,
          Finset.sum (Finset.Icc 1 n) (fun k => base * 2 ^ (k - 1)))) ∧
    (maxAttempts ≤ n →
      executeWithRetry (failNStub n e r) maxAttempts base =
        (.error e, maxAttempts,
          Finset.sum (Finset.Icc 1 (maxAttempts - 1))
            (fun k => base * 2 ^ (k - 1))) ∧
      isRetryableError e = true) := by
  constructor
  · intro h
    rw [executeWithRetry,
      retryGo_failNStub_ok n base e r hret (maxAttempts - 1) 1 (by omega)
        (by omega) (by omega), sum_pow_Icc]
    refine congrArg (Prod.mk (AdapterResult.ok r)) ?_
    refine congrArg₂ Prod.mk (by omega) ?_
    norm_num
  · intro h
    refine ⟨?_, hret⟩
    rw [executeWithRetry,
      retryGo_failNStub_exhaust n base e r hret (maxAttempts - 1) 1 (by omega)
        (by omega), sum_pow_Icc]
    refine congrArg (Prod.mk (AdapterResult.error e)) ?_
    refine congrArg₂ Prod.mk (by omega) ?_
    have h2 : 1 + (maxAttempts - 1) - 1 = maxAttempts - 1 := by omega
    rw [h2]
    norm_num

/-- Witness for claim C2 at `n = 2`, `maxAttempts = 4`, `base = 100`. -/
theorem claim_C2_retry_witness :
    isRetryableError errTransient = true ∧ (1 : ℕ) ≤ 4 ∧ (2 : ℕ) < 4 ∧
    executeWithRetry (failNStub 2 errTransient respW) 4 100 =
      (.ok respW, 3,
        Finset.sum (Finset.Icc 1 2) (fun k => 100 * 2 ^ (k - 1))) :=
  ⟨by decide, by decide, by decide,
    (claim_C2_retry 2 4 100 errTransient respW (by decide) (by decide)).1
      (by decide)⟩

/-- Claim C3: when the adapter rejects with a fatal (non-retryable,
e.g. authentication) error, a non-streaming bridge call invokes the
adapter exactly once and throws a structured error whose `retryable`
flag is false. -/
theorem claim_C3_fatal_single_attempt (opts : BridgeOptions) (e : Err)
    (now elapsed : Nat) (req : Request) (st : BridgeState)
    (hfatal : isRetryableError e = false)
    (hmiss : cacheGet st.cache now (generateCacheKey opts req) = none) :
    (proxyRequest opts (fun _ _ => .error e) now elapsed req st).invocations
      = 1 ∧
    ∃ se,
      (proxyRequest opts (fun _ _ => .error e) now elapsed req st).result =
        .error se ∧ se.retryable = false := by
  have hrun : executeWithRetry
      ((fun (_ : ClaudeRequest) (_ : Nat) => AdapterResult.error e)
        (transformToClaudeFormat opts req))
      opts.retryAttempts opts.retryDelay = (.error e, 1, 0) := by
    simp [executeWithRetry, retryGo_const_fatal e hfatal]
  have hn := proxyRequest_miss_error_eq opts (fun _ _ => .error e) now elapsed
    req st e hmiss (by rw [hrun])
  refine ⟨?_, ⟨_, hn.1, ?_⟩⟩
  · rw [hn.2.1, hrun]
  · simp [hfatal]

set_option maxRecDepth 100000 in
/-- Witness for claim C3: a 401 authentication error against the
concrete bridge configuration. -/
theorem claim_C3_fatal_single_attempt_witness :
    isRetryableError errFatal = false ∧
    cacheGet stEmpty.cache 0 (generateCacheKey optsW reqW) = none ∧
    (proxyRequest optsW (fun _ _ => .error errFatal) 0 7 reqW stEmpty).invocations
      = 1 ∧
    ∃ se,
      (proxyRequest optsW (fun _ _ => .error errFatal) 0 7 reqW stEmpty).result =
        .error se ∧ se.retryable = false :=
  ⟨by decide, by decide,
    claim_C3_fatal_single_attempt optsW errFatal 0 7 reqW stEmpty
      (by decide) (by decide)⟩

/-- Claim C5: whatever request the bridge forwards to the adapter has
its token budget replaced by the 8192 ceiling whenever the requested
`max_tokens` exceeds it, and its temperature clamped into `[0, 1]`. -/
theorem claim_C5_clamping (opts : BridgeOptions)
    (adapter : ClaudeRequest → Nat → AdapterResult) (now elapsed : Nat)
    (req : Request) (st : BridgeState) (creq : ClaudeRequest)
    (hfwd : (proxyRequest opts adapter now elapsed req st).forwarded =
      some creq) :
    (∀ v : ℚ, req.max_tokens = some v → 8192 < v → creq.max_tokens = 8192) ∧
    0 ≤ creq.temperature ∧ creq.temperature ≤ 1 := by
  have hc : creq = transformToClaudeFormat opts req :=
    proxyRequest_forwarded_eq opts adapter now elapsed req st creq hfwd
  subst hc
  refine ⟨?_, ?_, ?_⟩
  · intro v hv h8192
    simp only [transformToClaudeFormat, hv, Option.getD_some]
    exact min_eq_right h8192.le
  · simp only [transformToClaudeFormat]
    exact le_max_left 0 _
  · simp only [transformToClaudeFormat]
    exact max_le (by norm_num) (min_le_left 1 _)

set_option maxRecDepth 100000 in
/-- Witness for claim C5: a request asking for 999999 tokens and
temperature 7/2 is forwarded with the 8192 ceiling and a clamped
temperature. -/
theorem claim_C5_clamping_witness :
    (proxyRequest optsW (fun _ _ => .ok respW) 0 9 reqBig stEmpty).forwarded =
      some (transformToClaudeFormat optsW reqBig) ∧
    ((∀ v : ℚ, reqBig.max_tokens = some v → 8192 < v →
        (transformToClaudeFormat optsW reqBig).max_tokens = 8192) ∧
      0 ≤ (transformToClaudeFormat optsW reqBig).temperature ∧
      (transformToClaudeFormat optsW reqBig).temperature ≤ 1) :=
  ⟨(proxyRequest_miss_ok_eq optsW (fun _ _ => .ok respW) 0 9 reqBig stEmpty
      respW rfl
      (by rw [executeWithRetry, retryGo.eq_1 _ _ _ _ respW rfl])).2.2.2.2,
    claim_C5_clamping optsW (fun _ _ => .ok respW) 0 9 reqBig stEmpty _
      ((proxyRequest_miss_ok_eq optsW (fun _ _ => .ok respW) 0 9 reqBig stEmpty
        respW rfl
        (by rw [executeWithRetry, retryGo.eq_1 _ _ _ _ respW rfl])).2.2.2.2)⟩

/-- Claim C10: a non-streaming call whose backend invocation ultimately
fails leaves the cache unchanged, so a subsequent identical request
(whose key is still absent) invokes the backend adapter again. -/
theorem claim_C10_failure_preserves_cache (opts : BridgeOptions)
    (ad1 ad2 : ClaudeRequest → Nat → AdapterResult) (t1 e1 t2 e2 : Nat)
    (req : Request) (st : BridgeState) (se : StructuredError)
    (hfail : (proxyRequest opts ad1 t1 e1 req st).result = .error se)
    (hmiss : cacheGet st.cache t2 (generateCacheKey opts req) = none) :
    (proxyRequest opts ad1 t1 e1 req st).state.cache = st.cache ∧
    1 ≤ (proxyRequest opts ad2 t2 e2 req
      (proxyRequest opts ad1 t1 e1 req st).state).invocations := by
  have hcache := proxyRequest_error_cache_unchanged opts ad1 t1 e1 req st se
    hfail
  refine ⟨hcache, ?_⟩
  apply proxyRequest_miss_invocations_pos
  rw [hcache]
  exact hmiss

set_option maxRecDepth 100000 in
/-- Witness for claim C10: a fatally failing first call against the
concrete bridge, followed by a second identical call. -/
theorem claim_C10_failure_preserves_cache_witness :
    (∃ se, (proxyRequest optsW (fun _ _ => .error errFatal) 0 7 reqW
      stEmpty).result = .error se) ∧
    cacheGet stEmpty.cache 50 (generateCacheKey optsW reqW) = none ∧
    (proxyRequest optsW (fun _ _ => .error errFatal) 0 7 reqW
      stEmpty).state.cache = stEmpty.cache ∧
    1 ≤ (proxyRequest optsW (fun _ _ => .ok respW) 50 9 reqW
      (proxyRequest optsW (fun _ _ => .error errFatal) 0 7 reqW
        stEmpty).state).invocations := by
  refine ⟨⟨⟨401, "authentication_error", some "req_1", 7, false⟩, by decide⟩,
    by decide, ?_⟩
  exact claim_C10_failure_preserves_cache optsW
    (fun _ _ => .error errFatal) (fun _ _ => .ok respW) 0 7 50 9 reqW stEmpty
    ⟨401, "authentication_error", some "req_1", 7, false⟩ (by decide) (by decide)

/-- Claim C4, counterexample: in an environment with no API credential,
no working SDK, a loadable CLI module but an external command that does
NOT resolve on the path, `initializeAuthMethods` still pins the
ExternalProcess backend (the code never consults
`ClaudeCodeCLI.isAvailable` during selection), while the spec's
selection contract yields None. -/
theorem claim_C4_counterexample :
    initializeAuthMethods ⟨false, false, false, true, false⟩ =
      AuthMethod.cli ∧
    specSelectBackend ⟨false, false, false, true, false⟩ =
      AuthMethod.none ∧
    AuthMethod.cli ≠ AuthMethod.none := by
  decide

/-- Claim C4, amended: backend selection pins, once at startup, the
first candidate in priority order — DirectAPI iff a credential is
configured; otherwise InProcessSDK iff the SDK module loads and reports
itself available; otherwise ExternalProcess iff the CLI module import
succeeds (regardless of whether the external command resolves on the
execution path — that probe happens only at execution time); otherwise
None. -/
theorem claim_C4_amended (env : AuthEnv) :
    (initializeAuthMethods env = .api ↔ env.hasApiKey = true) ∧
    (initializeAuthMethods env = .sdk ↔
      env.hasApiKey = false ∧ env.sdkImportOk = true ∧
        env.sdkAvailable = true) ∧
    (initializeAuthMethods env = .cli ↔
      env.hasApiKey = false ∧
        ¬(env.sdkImportOk = true ∧ env.sdkAvailable = true) ∧
        env.cliImportOk = true) ∧
    (initializeAuthMethods env = .none ↔
      env.hasApiKey = false ∧
        ¬(env.sdkImportOk = true ∧ env.sdkAvailable = true) ∧
        env.cliImportOk = false) := by
  obtain ⟨k, si, sa, ci, ca⟩ := env
  cases k <;> cases si <;> cases sa <;> cases ci <;> cases ca <;> decide

/-- Claim C6, counterexample: a CI-automation payload with neither
`direct_prompt` nor `prompt` does not fail — normalization totally
succeeds and produces an ordinary request whose message list simply
lacks the primary-instruction entry. -/
theorem claim_C6_counterexample :
    transformGitHubActionsRequest optsW { system_prompt := some "sys" } =
      { model := "m-default", max_tokens := 4096, temperature := 3 / 10,
        messages := [⟨"system", "sys"⟩], action := "chat" } := by
  with_unfolding_all rfl

/-- Claim C6, amended: the CI-automation dialect synthesizes the message
list in fixed order — optional system-prompt message, optional context
message, then the primary instruction with `direct_prompt` taking
precedence over `prompt` — and when neither `direct_prompt` nor `prompt`
is present the primary entry is simply omitted and normalization still
returns a request (there is no `InvalidRequest` failure path). -/
theorem claim_C6_amended (opts : BridgeOptions) (gh : GHRequest) :
    (transformGitHubActionsRequest opts gh).messages =
      ghMessagesSynthesis gh ∧
    (jsTruthyStr gh.direct_prompt = true →
      (transformGitHubActionsRequest opts gh).messages.getLast? =
        some ⟨"user", gh.direct_prompt.getD ""⟩) ∧
    (gh.direct_prompt = none → gh.prompt = none →
      (transformGitHubActionsRequest opts gh).messages =
        (if jsTruthyStr gh.system_prompt
          then [⟨"system", gh.system_prompt.getD ""⟩] else []) ++
        (if jsTruthyStr gh.context
          then [⟨"user", "Context: " ++ gh.context.getD ""⟩] else [])) := by
  refine ⟨?_, ?_, ?_⟩
  · simp only [transformGitHubActionsRequest, ghMessagesSynthesis]
    by_cases h1 : jsTruthyStr gh.system_prompt <;>
      by_cases h2 : jsTruthyStr gh.context <;>
      by_cases h3 : jsTruthyStr (jsOrOpt gh.direct_prompt gh.prompt) <;>
      simp [h1, h2, h3]
  · intro hd
    have h3 : jsTruthyStr (jsOrOpt gh.direct_prompt gh.prompt) = true := by
      simp [jsOrOpt, hd]
    have hval : jsOrOpt gh.direct_prompt gh.prompt = gh.direct_prompt := by
      simp [jsOrOpt, hd]
    simp only [transformGitHubActionsRequest, hval]
    rw [if_pos hd]
    exact List.getLast?_concat _
  · intro hd hp
    have hnone : jsOrOpt gh.direct_prompt gh.prompt = none := by
      simp [jsOrOpt, hd, hp]
    simp only [transformGitHubActionsRequest, hnone]
    by_cases h1 : jsTruthyStr gh.system_prompt <;>
      by_cases h2 : jsTruthyStr gh.context <;>
      simp [h1, h2, show jsTruthyStr none = false from rfl]

set_option maxRecDepth 100000 in
/-- Witness for claim C6 at a payload with every optional field
present: the synthesized list is system, context, then the
`direct_prompt` text. -/
theorem claim_C6_amended_witness :
    (transformGitHubActionsRequest optsW ghW).messages =
      ghMessagesSynthesis ghW ∧
    jsTruthyStr ghW.direct_prompt = true ∧
    (transformGitHubActionsRequest optsW ghW).messages.getLast? =
      some ⟨"user", ghW.direct_prompt.getD ""⟩ :=
  ⟨(claim_C6_amended optsW ghW).1, by decide,
    (claim_C6_amended optsW ghW).2.1 (by decide)⟩

set_option maxRecDepth 1000000 in
/-- Claim C8, counterexample: two requests that are identical after
canonicalization (both token budgets clamp to the 8192 ceiling) map to
different cache keys — the fingerprint hashes the raw `max_tokens`, not
the canonicalized one. -/
theorem claim_C8_counterexample :
    transformToClaudeFormat optsW reqK1 = transformToClaudeFormat optsW reqK2 ∧
    generateCacheKey optsW reqK1 ≠ generateCacheKey optsW reqK2 := by
  constructor
  · simp only [transformToClaudeFormat, reqK1, reqK2, reqW]
    norm_num [min_def]
  · decide

/-- Claim C8, amended: the cache key is a function of only the raw
tuple (`model` with the configured default applied, `messages`,
`max_tokens`, `temperature`, `system`) serialized in fixed field order:
any two requests agreeing on those five raw fields map to the same key,
whatever their correlation id, headers, method, or stop sequences. -/
theorem claim_C8_amended (opts : BridgeOptions) (r1 r2 : Request)
    (hmodel : jsOrStr r1.model opts.defaultModel =
      jsOrStr r2.model opts.defaultModel)
    (hmsgs : r1.messages = r2.messages)
    (hmax : r1.max_tokens = r2.max_tokens)
    (htemp : r1.temperature = r2.temperature)
    (hsys : r1.system = r2.system) :
    generateCacheKey opts r1 = generateCacheKey opts r2 := by
  simp only [generateCacheKey, serializeKeyData, hmodel, hmsgs, hmax, htemp,
    hsys]

set_option maxRecDepth 1000000 in
/-- Witness for claim C8: changing only correlation id, headers and the
stop-sequence list leaves the cache key unchanged. -/
theorem claim_C8_amended_witness :
    reqW.requestId ≠ reqWMeta.requestId ∧
    reqW.headers ≠ reqWMeta.headers ∧
    generateCacheKey optsW reqW = generateCacheKey optsW reqWMeta :=
  ⟨by decide, by decide,
    claim_C8_amended optsW reqW reqWMeta (by decide) (by decide)
      (by with_unfolding_all decide) (by decide) (by decide)⟩

/-- Invariant of `recordLatencies`: the request counter grows by the
number of samples and `average * requests` accumulates the sample sum. -/
lemma recordLatencies_invariant (resp : ClaudeResponse) :
    ∀ (samples : List ℚ) (m : Metrics),
      (recordLatencies resp samples m).requests =
        m.requests + samples.length ∧
      (recordLatencies resp samples m).averageResponseTime *
          ((m.requests : ℚ) + samples.length) =
        m.averageResponseTime * m.requests + samples.sum := by
  intro samples
  induction samples with
  | nil =>
    intro m
    simp [recordLatencies]
  | cons s rest ih =>
    intro m
    have hfold : recordLatencies resp (s :: rest) m =
        recordLatencies resp rest
          (updateMetrics { m with requests := m.requests + 1 } resp s) := by
      simp [recordLatencies]
    set m2 := updateMetrics { m with requests := m.requests + 1 } resp s
      with hm2
    have h1 : m2.requests = m.requests + 1 := by
      rw [hm2, updateMetrics_requests]
    have h2 : m2.averageResponseTime =
        (m.averageResponseTime * m.requests + s) / ((m.requests : ℚ) + 1) := by
      rw [hm2]
      cases hu : resp.usage <;>
        simp only [updateMetrics, hu] <;>
        push_cast <;>
        ring_nf
    obtain ⟨ihr, iha⟩ := ih m2
    rw [hfold]
    constructor
    · rw [ihr, h1, List.length_cons]
      omega
    · rw [h1] at iha
      rw [h2] at iha
      have hne : ((m.requests : ℚ) + 1) ≠ 0 := by positivity
      rw [div_mul_eq_mul_div] at iha
      rw [List.length_cons, List.sum_cons]
      push_cast at iha ⊢
      have hgoal : (recordLatencies resp rest m2).averageResponseTime *
          ((m.requests : ℚ) + ((rest.length : ℚ) + 1)) =
          (recordLatencies resp rest m2).averageResponseTime *
          (((m.requests : ℚ) + 1) + (rest.length : ℚ)) := by ring
      rw [hgoal, iha]
      field_simp
      ring

/-- Claim C9, amended: `updateMetrics` realizes the incremental rule
`newMean = oldMean + (sample - oldMean) / n` with `n` the bridge-wide
request counter (not the number of recorded samples); consequently the
stored average equals the arithmetic mean of the samples exactly in the
regime where every counted request records one sample — an
uninterrupted sequence of successful non-cached calls from a fresh
bridge. -/
theorem claim_C9_amended :
    (∀ (m : Metrics) (resp : ClaudeResponse) (s : ℚ), 1 ≤ m.requests →
      (updateMetrics m resp s).averageResponseTime =
        m.averageResponseTime +
          (s - m.averageResponseTime) / (m.requests : ℚ)) ∧
    (∀ (resp : ClaudeResponse) (samples : List ℚ), samples ≠ [] →
      (recordLatencies resp samples initialMetrics).averageResponseTime =
        samples.sum / samples.length) := by
  constructor
  · intro m resp s hreq
    have hne : ((m.requests : ℚ)) ≠ 0 := by
      have : m.requests ≠ 0 := by omega
      exact_mod_cast this
    cases hu : resp.usage <;>
      simp only [updateMetrics, hu] <;>
      field_simp <;>
      ring
  · intro resp samples hne
    obtain ⟨-, hinv⟩ := recordLatencies_invariant resp samples initialMetrics
    have hlen : (0 : ℚ) < samples.length := by
      have : 0 < samples.length := List.length_pos.mpr hne
      exact_mod_cast this
    have hz : ((initialMetrics.requests : ℚ)) = 0 := by
      simp [initialMetrics]
    rw [hz, zero_add] at hinv
    have hzero : initialMetrics.averageResponseTime = 0 := by
      simp [initialMetrics]
    rw [hzero, zero_mul, zero_add] at hinv
    rw [eq_div_iff hlen.ne']
    exact hinv

/-- Witness for claim C9's amended statement at a two-sample run. -/
theorem claim_C9_amended_witness :
    (1 : ℕ) ≤ 2 ∧
    (updateMetrics ⟨2, 0, 0, 0, 0, 100, none⟩ respW 7).averageResponseTime =
      100 + (7 - 100) / ((2 : ℕ) : ℚ) ∧
    ([100, 200] : List ℚ) ≠ [] ∧
    (recordLatencies respW [100, 200] initialMetrics).averageResponseTime =
      ([100, 200] : List ℚ).sum / (([100, 200] : List ℚ).length : ℚ) :=
  ⟨by decide, claim_C9_amended.1 ⟨2, 0, 0, 0, 0, 100, none⟩ respW 7 (by decide),
    by simp, claim_C9_amended.2 respW [100, 200] (by simp)⟩

set_option maxRecDepth 1000000 in
/-- Claim C9, counterexample: in the three-call scenario the bridge
records exactly two latency samples (100 ms and 200 ms; the middle call
is a cache hit recording none), yet the stored running average divides
by the total request counter 3, giving 400/3 instead of the arithmetic
mean 150 of the recorded samples. -/
theorem claim_C9_counterexample :
    c9Run1.invocations = 1 ∧ c9Run2.invocations = 0 ∧
    c9Run3.invocations = 1 ∧
    c9Run3.state.metrics.requests = 3 ∧
    c9Run3.state.metrics.averageResponseTime = 400 / 3 ∧
    (400 / 3 : ℚ) ≠ (100 + 200) / 2 :=
  ⟨by decide, by decide, by decide, by decide,
    by with_unfolding_all decide, by norm_num⟩

/-- Claim C1, amended: with the cache enabled, for a non-mutating
request whose first call succeeds with a usage-carrying response and
whose second identical call lands within the TTL window, the second
call is served from the cache without invoking the backend adapter,
its cache-hit counter is exactly one above the first call's, and it
returns the same underlying CanonicalResponse `R` — wrapped, however,
in different envelope metadata (`fromCache := true`, no
requestId/responseTime, its own timestamp), so the two returned objects
are not byte-identical. -/
theorem claim_C1_amended (opts : BridgeOptions)
    (ad2 : ClaudeRequest → Nat → AdapterResult) (t1 e1 t2 e2 : Nat)
    (req : Request) (st0 : BridgeState) (R : ClaudeResponse) (u : Usage)
    (hen : opts.cacheEnabled = true)
    (hmeth : req.method ≠ some "POST")
    (husage : R.usage = some u)
    (hmiss : cacheGet st0.cache t1 (generateCacheKey opts req) = none)
    (httl : t2 < t1 + e1 + opts.cacheTtl * 1000) :
    (proxyRequest opts ad2 t2 e2 req
      (proxyRequest opts (fun _ _ => .ok R) t1 e1 req
        st0).state).invocations = 0 ∧
    (proxyRequest opts (fun _ _ => .ok R) t1 e1 req st0).result =
      .ok (formatResponse R ⟨none, req.requestId, some e1⟩ (t1 + e1)) ∧
    (proxyRequest opts ad2 t2 e2 req
      (proxyRequest opts (fun _ _ => .ok R) t1 e1 req st0).state).result =
      .ok (formatResponse R ⟨some true, none, none⟩ t2) ∧
    (proxyRequest opts ad2 t2 e2 req
      (proxyRequest opts (fun _ _ => .ok R) t1 e1 req
        st0).state).state.metrics.cacheHits =
      (proxyRequest opts (fun _ _ => .ok R) t1 e1 req
        st0).state.metrics.cacheHits + 1 := by
  have hrun1 : (executeWithRetry
      ((fun (_ : ClaudeRequest) (_ : Nat) => AdapterResult.ok R)
        (transformToClaudeFormat opts req))
      opts.retryAttempts opts.retryDelay).1 = .ok R := by
    rw [executeWithRetry, retryGo.eq_1 _ _ _ _ R rfl]
  have h1 := proxyRequest_miss_ok_eq opts (fun _ _ => .ok R) t1 e1 req st0 R
    hmiss hrun1
  have hcache1 : (proxyRequest opts (fun _ _ => .ok R) t1 e1 req
      st0).state.cache =
      cacheSet st0.cache (generateCacheKey opts req) R (t1 + e1)
        opts.cacheTtl := by
    rw [h1.2.1, if_pos ⟨hen, by simp [husage]⟩]
  have hhit2 : cacheGet
      (proxyRequest opts (fun _ _ => .ok R) t1 e1 req st0).state.cache t2
      (generateCacheKey opts req) = some R := by
    rw [hcache1]
    simp only [cacheGet, cacheSet, List.find?_cons, beq_self_eq_true]
    rw [if_pos httl]
  have h2 := proxyRequest_hit_eq opts ad2 t2 e2 req
    (proxyRequest opts (fun _ _ => .ok R) t1 e1 req st0).state R hen hmeth
    hhit2
  refine ⟨?_, h1.1, ?_, ?_⟩
  · rw [h2]
  · rw [h2]
  · rw [h2]

set_option maxRecDepth 1000000 in
/-- Witness for claim C1's amended statement at the concrete two-call
scenario. -/
theorem claim_C1_amended_witness :
    optsW.cacheEnabled = true ∧
    reqW.method ≠ some "POST" ∧
    respW.usage = some ⟨3, 5⟩ ∧
    cacheGet stEmpty.cache 0 (generateCacheKey optsW reqW) = none ∧
    200 < 0 + 100 + optsW.cacheTtl * 1000 ∧
    (proxyRequest optsW (fun _ _ => .ok respW) 200 5 reqW
      (proxyRequest optsW (fun _ _ => .ok respW) 0 100 reqW
        stEmpty).state).invocations = 0 ∧
    (proxyRequest optsW (fun _ _ => .ok respW) 200 5 reqW
      (proxyRequest optsW (fun _ _ => .ok respW) 0 100 reqW
        stEmpty).state).result =
      .ok (formatResponse respW ⟨some true, none, none⟩ 200) :=
  ⟨by decide, by decide, by decide, by decide, by decide,
    (claim_C1_amended optsW (fun _ _ => .ok respW) 0 100 200 5 reqW stEmpty
      respW ⟨3, 5⟩ (by decide) (by decide) (by decide) (by decide)
      (by decide)).1,
    (claim_C1_amended optsW (fun _ _ => .ok respW) 0 100 200 5 reqW stEmpty
      respW ⟨3, 5⟩ (by decide) (by decide) (by decide) (by decide)
      (by decide)).2.2.1⟩

set_option maxRecDepth 1000000 in
/-- Claim C1, counterexample to byte-identity as stated: in the
concrete two-call scenario the second call is served from the cache
(zero adapter invocations), yet the object it returns is not equal to
the first call's — the envelopes differ (`fromCache` versus
requestId/responseTime/timestamp). -/
theorem claim_C1_counterexample :
    (proxyRequest optsW (fun _ _ => .ok respW) 200 5 reqW
      (proxyRequest optsW (fun _ _ => .ok respW) 0 100 reqW
        stEmpty).state).invocations = 0 ∧
    (proxyRequest optsW (fun _ _ => .ok respW) 200 5 reqW
        (proxyRequest optsW (fun _ _ => .ok respW) 0 100 reqW
          stEmpty).state).result ≠
      (proxyRequest optsW (fun _ _ => .ok respW) 0 100 reqW
        stEmpty).result :=
  ⟨by decide, by decide⟩

lemma streamTrace_cons_start (l : List RawEvent) :
    streamTrace (.messageStart :: l) = ⟨"", .start⟩ :: streamTrace l := by
  simp [streamTrace, translateRaw]

lemma streamTrace_append (l1 l2 : List RawEvent) :
    streamTrace (l1 ++ l2) = streamTrace l1 ++ streamTrace l2 := by
  simp [streamTrace]

lemma streamTrace_deltas (cs : List String)
    (h : ∀ t ∈ cs, t.isEmpty = false) :
    streamTrace (cs.map .contentDelta) =
      cs.map (fun t => ⟨t, .content⟩) := by
  induction cs with
  | nil => simp [streamTrace]
  | cons c rest ih =>
    have hc : c.isEmpty = false := h c (by simp)
    have ih2 := ih (fun t ht => h t (by simp [ht]))
    simp only [List.map_cons, streamTrace, List.flatten_cons, translateRaw,
      hc, Bool.false_eq_true, if_false] at ih2 ⊢
    rw [List.map_map] at ih2
    simp [ih2]

lemma contentTexts_append (l1 l2 : List Chunk) :
    contentTexts (l1 ++ l2) = contentTexts l1 ++ contentTexts l2 := by
  simp [contentTexts]

lemma terminals_append (l1 l2 : List Chunk) :
    terminals (l1 ++ l2) = terminals l1 ++ terminals l2 := by
  simp [terminals]

lemma contentTexts_cons_start (t : String) (l : List Chunk) :
    contentTexts (⟨t, .start⟩ :: l) = contentTexts l := by
  simp [contentTexts]

lemma contentTexts_contents (cs : List String) :
    contentTexts (cs.map (fun t => ⟨t, .content⟩)) = cs := by
  induction cs with
  | nil => rfl
  | cons c rest ih =>
    simp only [List.map_cons, contentTexts, List.filter_cons] at ih ⊢
    simp only [show ((Chunk.mk c EventKind.content).kind ==
      EventKind.content) = true from rfl, if_true, List.map_cons]
    rw [ih]

lemma terminals_cons_start (t : String) (l : List Chunk) :
    terminals (⟨t, .start⟩ :: l) = terminals l := by
  simp [terminals, isTerminal]

lemma terminals_contents (cs : List String) :
    terminals (cs.map (fun t => ⟨t, .content⟩)) = [] := by
  induction cs with
  | nil => rfl
  | cons c rest ih =>
    simp only [List.map_cons, terminals, List.filter_cons] at ih ⊢
    simp only [show isTerminal (Chunk.mk c EventKind.content) = false
      from rfl, Bool.false_eq_true, if_false]
    exact ih

/-- The `onChunk` trace of one failing stub attempt: a `start` event
then the content chunks, no terminal event. -/
lemma failAttemptTrace (cs : List String)
    (h : ∀ t ∈ cs, t.isEmpty = false) :
    streamTrace (.messageStart :: cs.map .contentDelta) =
      ⟨"", .start⟩ :: cs.map (fun t => ⟨t, .content⟩) := by
  rw [streamTrace_cons_start, streamTrace_deltas cs h]

lemma contentTexts_failAttempt (cs : List String)
    (h : ∀ t ∈ cs, t.isEmpty = false) :
    contentTexts (streamTrace (.messageStart :: cs.map .contentDelta)) =
      cs := by
  rw [failAttemptTrace cs h, contentTexts_cons_start, contentTexts_contents]

lemma terminals_failAttempt (cs : List String)
    (h : ∀ t ∈ cs, t.isEmpty = false) :
    terminals (streamTrace (.messageStart :: cs.map .contentDelta)) = [] := by
  rw [failAttemptTrace cs h, terminals_cons_start, terminals_contents]

/-- The `onChunk` trace of the succeeding stub attempt: `start`, the
content chunks, then the single `stop`. -/
lemma succAttemptTrace (cs : List String)
    (h : ∀ t ∈ cs, t.isEmpty = false) :
    streamTrace (.messageStart :: cs.map .contentDelta ++ [.messageStop]) =
      (⟨"", .start⟩ :: cs.map (fun t => ⟨t, .content⟩)) ++ [⟨"", .stop⟩] := by
  rw [show (RawEvent.messageStart :: cs.map .contentDelta ++ [.messageStop]) =
      (RawEvent.messageStart :: cs.map .contentDelta) ++ [.messageStop]
    from rfl]
  rw [streamTrace_append, failAttemptTrace cs h]
  rfl

lemma streamStub_le (fails : Nat) (perChunks : Nat → List String)
    (errs : Nat → Err) (k : Nat) (hk : k ≤ fails) :
    streamStub fails perChunks errs k =
      ⟨.messageStart :: (perChunks k).map .contentDelta, some (errs k)⟩ := by
  simp [streamStub, hk]

lemma streamStub_gt (fails : Nat) (perChunks : Nat → List String)
    (errs : Nat → Err) (k : Nat) (hk : fails < k) :
    streamStub fails perChunks errs k =
      ⟨.messageStart :: (perChunks k).map .contentDelta ++ [.messageStop],
        none⟩ := by
  simp [streamStub, show ¬(k ≤ fails) by omega]

lemma streamRetryGo_step_none (ad : Nat → StreamAttempt) (a rem : Nat)
    (hfail : (ad a).failure = none) :
    streamRetryGo ad a rem = (streamTrace (ad a).events, none, 1) := by
  rw [streamRetryGo.eq_def]
  cases rem <;> simp [hfail]

lemma streamRetryGo_step_zero (ad : Nat → StreamAttempt) (a : Nat) (e : Err)
    (hfail : (ad a).failure = some e) :
    streamRetryGo ad a 0 = (streamTrace (ad a).events, some e, 1) := by
  rw [streamRetryGo.eq_def]
  simp [hfail]

lemma streamRetryGo_step_retry (ad : Nat → StreamAttempt) (a rem : Nat)
    (e : Err) (hfail : (ad a).failure = some e)
    (hr : isRetryableError e = true) :
    streamRetryGo ad a (rem + 1) =
      (streamTrace (ad a).events ++ (streamRetryGo ad (a + 1) rem).1,
        (streamRetryGo ad (a + 1) rem).2.1,
        (streamRetryGo ad (a + 1) rem).2.2 + 1) := by
  rw [streamRetryGo.eq_def]
  simp [hfail, hr]

/-- Running the stream-retry loop against the stub from attempt `a` with
enough budget to reach the succeeding attempt `fails + 1`: no error
propagates, the adapter runs `fails + 2 - a` times, the content chunks
of attempts `a..fails + 1` are forwarded in order, and the trace is a
terminal-free prefix followed by the single `stop` event. -/
lemma streamRetryGo_stub_succ (fails : Nat) (perChunks : Nat → List String)
    (errs : Nat → Err)
    (hret : ∀ k, 1 ≤ k → k ≤ fails → isRetryableError (errs k) = true)
    (htexts : ∀ k, ∀ t ∈ perChunks k, t.isEmpty = false) :
    ∀ rem a, 1 ≤ a → a ≤ fails + 1 → fails + 1 ≤ a + rem →
      (streamRetryGo (streamStub fails perChunks errs) a rem).2.1 = none ∧
      (streamRetryGo (streamStub fails perChunks errs) a rem).2.2 =
        fails + 2 - a ∧
      contentTexts
          (streamRetryGo (streamStub fails perChunks errs) a rem).1 =
        ((List.range' a (fails + 2 - a)).map perChunks).flatten ∧
      ∃ pre, (streamRetryGo (streamStub fails perChunks errs) a rem).1 =
        pre ++ [⟨"", .stop⟩] ∧ terminals pre = [] := by
  intro rem
  induction rem with
  | zero =>
    intro a h1 h2 h3
    have ha : a = fails + 1 := by omega
    subst ha
    have hstub := streamStub_gt fails perChunks errs (fails + 1) (by omega)
    rw [streamRetryGo_step_none _ _ _ (by rw [hstub])]
    refine ⟨rfl, by simp, ?_, ?_⟩
    · rw [hstub]
      show contentTexts (streamTrace
        (.messageStart :: (perChunks (fails + 1)).map .contentDelta ++
          [.messageStop])) = _
      rw [succAttemptTrace _ (htexts (fails + 1)), contentTexts_append,
        contentTexts_cons_start, contentTexts_contents]
      have hone : fails + 2 - (fails + 1) = 1 := by omega
      rw [hone]
      simp [List.range', contentTexts]
    · refine ⟨⟨"", .start⟩ ::
        (perChunks (fails + 1)).map (fun t => ⟨t, .content⟩), ?_, ?_⟩
      · rw [hstub]
        show streamTrace (.messageStart ::
          (perChunks (fails + 1)).map .contentDelta ++ [.messageStop]) = _
        rw [succAttemptTrace _ (htexts (fails + 1))]
      · rw [terminals_cons_start, terminals_contents]
  | succ rem ih =>
    intro a h1 h2 h3
    by_cases hle : a ≤ fails
    · have hstub := streamStub_le fails perChunks errs a hle
      rw [streamRetryGo_step_retry _ _ _ (errs a) (by rw [hstub])
        (hret a h1 hle)]
      obtain ⟨ihres, ihcount, ihtexts, pre, hpre, hterm⟩ :=
        ih (a + 1) (by omega) (by omega) (by omega)
      refine ⟨ihres, ?_, ?_, ?_⟩
      · show (streamRetryGo (streamStub fails perChunks errs) (a + 1)
          rem).2.2 + 1 = fails + 2 - a
        rw [ihcount]
        omega
      · show contentTexts (streamTrace
            (streamStub fails perChunks errs a).events ++
            (streamRetryGo (streamStub fails perChunks errs) (a + 1)
              rem).1) = _
        rw [contentTexts_append, ihtexts, hstub]
        show contentTexts (streamTrace (.messageStart ::
            (perChunks a).map .contentDelta)) ++ _ = _
        rw [contentTexts_failAttempt _ (htexts a)]
        have hsplit : fails + 2 - a = (fails + 2 - (a + 1)) + 1 := by omega
        rw [hsplit, List.range'_succ]
        simp
      · refine ⟨streamTrace (streamStub fails perChunks errs a).events ++
          pre, ?_, ?_⟩
        · show streamTrace (streamStub fails perChunks errs a).events ++
            (streamRetryGo (streamStub fails perChunks errs) (a + 1)
              rem).1 = _
          rw [hpre, List.append_assoc]
        · rw [terminals_append, hterm, hstub]
          show terminals (streamTrace (.messageStart ::
            (perChunks a).map .contentDelta)) ++ [] = []
          rw [terminals_failAttempt _ (htexts a)]
          rfl
    · have ha : a = fails + 1 := by omega
      subst ha
      have hstub := streamStub_gt fails perChunks errs (fails + 1) (by omega)
      rw [streamRetryGo_step_none _ _ _ (by rw [hstub])]
      refine ⟨rfl, by simp, ?_, ?_⟩
      · rw [hstub]
        show contentTexts (streamTrace
          (.messageStart :: (perChunks (fails + 1)).map .contentDelta ++
            [.messageStop])) = _
        rw [succAttemptTrace _ (htexts (fails + 1)), contentTexts_append,
          contentTexts_cons_start, contentTexts_contents]
        have hone : fails + 2 - (fails + 1) = 1 := by omega
        rw [hone]
        simp [List.range', contentTexts]
      · refine ⟨⟨"", .start⟩ ::
          (perChunks (fails + 1)).map (fun t => ⟨t, .content⟩), ?_, ?_⟩
        · rw [hstub]
          show streamTrace (.messageStart ::
            (perChunks (fails + 1)).map .contentDelta ++ [.messageStop]) = _
          rw [succAttemptTrace _ (htexts (fails + 1))]
        · rw [terminals_cons_start, terminals_contents]

/-- Running the stream-retry loop against the stub when the budget is
exhausted before the succeeding attempt: the error of the final attempt
propagates after `rem + 1` invocations, the content chunks of attempts
`a..a + rem` are forwarded in order, and no terminal event is emitted by
the loop itself. -/
lemma streamRetryGo_stub_fail (fails : Nat) (perChunks : Nat → List String)
    (errs : Nat → Err)
    (hret : ∀ k, 1 ≤ k → k ≤ fails → isRetryableError (errs k) = true)
    (htexts : ∀ k, ∀ t ∈ perChunks k, t.isEmpty = false) :
    ∀ rem a, 1 ≤ a → a + rem ≤ fails →
      (streamRetryGo (streamStub fails perChunks errs) a rem).2.1 =
        some (errs (a + rem)) ∧
      (streamRetryGo (streamStub fails perChunks errs) a rem).2.2 =
        rem + 1 ∧
      contentTexts
          (streamRetryGo (streamStub fails perChunks errs) a rem).1 =
        ((List.range' a (rem + 1)).map perChunks).flatten ∧
      terminals (streamRetryGo (streamStub fails perChunks errs) a rem).1 =
        [] := by
  intro rem
  induction rem with
  | zero =>
    intro a h1 h2
    have hstub := streamStub_le fails perChunks errs a (by omega)
    rw [streamRetryGo_step_zero _ _ (errs a) (by rw [hstub])]
    refine ⟨by simp, rfl, ?_, ?_⟩
    · rw [hstub]
      show contentTexts (streamTrace (.messageStart ::
        (perChunks a).map .contentDelta)) = _
      rw [contentTexts_failAttempt _ (htexts a)]
      simp [List.range', contentTexts]
    · rw [hstub]
      show terminals (streamTrace (.messageStart ::
        (perChunks a).map .contentDelta)) = []
      rw [terminals_failAttempt _ (htexts a)]
  | succ rem ih =>
    intro a h1 h2
    have hstub := streamStub_le fails perChunks errs a (by omega)
    rw [streamRetryGo_step_retry _ _ _ (errs a) (by rw [hstub])
      (hret a h1 (by omega))]
    obtain ⟨ihres, ihcount, ihtexts, ihterm⟩ := ih (a + 1) (by omega)
      (by omega)
    refine ⟨?_, ?_, ?_, ?_⟩
    · show (streamRetryGo (streamStub fails perChunks errs) (a + 1)
        rem).2.1 = _
      rw [ihres, show a + 1 + rem = a + (rem + 1) from by omega]
    · show (streamRetryGo (streamStub fails perChunks errs) (a + 1)
        rem).2.2 + 1 = rem + 1 + 1
      rw [ihcount]
    · show contentTexts (streamTrace
          (streamStub fails perChunks errs a).events ++
          (streamRetryGo (streamStub fails perChunks errs) (a + 1)
            rem).1) = _
      rw [contentTexts_append, ihtexts, hstub]
      show contentTexts (streamTrace (.messageStart ::
          (perChunks a).map .contentDelta)) ++ _ = _
      rw [contentTexts_failAttempt _ (htexts a), List.range'_succ]
      simp [List.range'_succ]
    · show terminals (streamTrace
          (streamStub fails perChunks errs a).events ++
          (streamRetryGo (streamStub fails perChunks errs) (a + 1)
            rem).1) = []
      rw [terminals_append, ihterm, hstub]
      show terminals (streamTrace (.messageStart ::
        (perChunks a).map .contentDelta)) ++ [] = []
      rw [terminals_failAttempt _ (htexts a)]
      rfl

/-- Claim C7: for a streaming adapter stub that emits its content
chunks and fails mid-sequence (retryably) on each of its first `fails`
attempts and completes with a final stop on attempt `fails + 1`, the
bridge forwards every content chunk to `onChunk` in arrival order and
the caller observes exactly one terminal event, positioned last: a
`stop` event when the budget reaches the succeeding attempt, and a
single `error` event when retries are exhausted — never silence, never
a second terminal event.  (A retried attempt's already-delivered chunks
remain delivered, so the content trace spans all attempts made.) -/
theorem claim_C7_stream_terminal (fails retryAttempts : Nat)
    (perChunks : Nat → List String) (errs : Nat → Err)
    (hret : ∀ k, 1 ≤ k → k ≤ fails → isRetryableError (errs k) = true)
    (htexts : ∀ k, ∀ t ∈ perChunks k, t.isEmpty = false)
    (hpos : 1 ≤ retryAttempts) :
    (fails < retryAttempts →
      contentTexts (proxyRequestStream (streamStub fails perChunks errs)
          retryAttempts).1 =
        ((List.range' 1 (fails + 1)).map perChunks).flatten ∧
      terminals (proxyRequestStream (streamStub fails perChunks errs)
          retryAttempts).1 = [⟨"", .stop⟩] ∧
      (proxyRequestStream (streamStub fails perChunks errs)
          retryAttempts).1.getLast? = some ⟨"", .stop⟩ ∧
      (proxyRequestStream (streamStub fails perChunks errs)
          retryAttempts).2.1 = true ∧
      (proxyRequestStream (streamStub fails perChunks errs)
          retryAttempts).2.2 = fails + 1) ∧
    (retryAttempts ≤ fails →
      contentTexts (proxyRequestStream (streamStub fails perChunks errs)
          retryAttempts).1 =
        ((List.range' 1 retryAttempts).map perChunks).flatten ∧
      terminals (proxyRequestStream (streamStub fails perChunks errs)
          retryAttempts).1 =
        [⟨"ERROR: " ++ jsOrStr (errs retryAttempts).message "Stream failed",
          .error⟩] ∧
      (proxyRequestStream (streamStub fails perChunks errs)
          retryAttempts).1.getLast? =
        some ⟨"ERROR: " ++ jsOrStr (errs retryAttempts).message
          "Stream failed", .error⟩ ∧
      (proxyRequestStream (streamStub fails perChunks errs)
          retryAttempts).2.1 = false ∧
      (proxyRequestStream (streamStub fails perChunks errs)
          retryAttempts).2.2 = retryAttempts) := by
  constructor
  · intro hlt
    obtain ⟨hres, hcount, htraces, pre, hpre, hterm⟩ :=
      streamRetryGo_stub_succ fails perChunks errs hret htexts
        (retryAttempts - 1) 1 (by omega) (by omega) (by omega)
    rw [show fails + 2 - 1 = fails + 1 from by omega] at hcount htraces
    simp only [proxyRequestStream, executeStreamWithRetry, hres]
    refine ⟨htraces, ?_, ?_, trivial, hcount⟩
    · rw [hpre, terminals_append, hterm]
      rfl
    · rw [hpre]
      exact List.getLast?_concat _
  · intro hle
    obtain ⟨hres, hcount, htraces, hterm⟩ :=
      streamRetryGo_stub_fail fails perChunks errs hret htexts
        (retryAttempts - 1) 1 (by omega) (by omega)
    rw [show 1 + (retryAttempts - 1) = retryAttempts from by omega] at hres
    rw [show retryAttempts - 1 + 1 = retryAttempts from by omega]
      at hcount htraces
    simp only [proxyRequestStream, executeStreamWithRetry, hres]
    refine ⟨?_, ?_, ?_, trivial, hcount⟩
    · rw [contentTexts_append, htraces]
      simp [contentTexts]
    · rw [terminals_append, hterm]
      rfl
    · exact List.getLast?_concat _

/-- Witness for claim C7: two chunks per attempt, one mid-stream
transient failure, budget 3 — the caller sees both attempts' chunks in
order and exactly one trailing stop. -/
theorem claim_C7_stream_terminal_witness :
    (∀ k, 1 ≤ k → k ≤ 1 → isRetryableError errTransient = true) ∧
    (∀ (k : Nat), ∀ t ∈ (["a", "b"] : List String), t.isEmpty = false) ∧
    (1 : ℕ) ≤ 3 ∧ (1 : ℕ) < 3 ∧
    contentTexts (proxyRequestStream
        (streamStub 1 (fun _ => ["a", "b"]) (fun _ => errTransient)) 3).1 =
      ((List.range' 1 2).map (fun _ => ["a", "b"])).flatten ∧
    terminals (proxyRequestStream
        (streamStub 1 (fun _ => ["a", "b"]) (fun _ => errTransient)) 3).1 =
      [⟨"", .stop⟩] ∧
    (proxyRequestStream
        (streamStub 1 (fun _ => ["a", "b"]) (fun _ => errTransient)) 3).2.2
      = 2 := by
  have hret : ∀ k, 1 ≤ k → k ≤ 1 → isRetryableError errTransient = true := by
    intro k h1 h2
    decide
  have htexts : ∀ (k : Nat), ∀ t ∈ (["a", "b"] : List String),
      t.isEmpty = false := by
    intro k t ht
    have h2 : t = "a" ∨ t = "b" := by simpa using ht
    rcases h2 with h2 | h2 <;> subst h2 <;> decide
  have h := (claim_C7_stream_terminal 1 3 (fun _ => ["a", "b"])
    (fun _ => errTransient)
    hret htexts (by decide)).1 (by decide)
  exact ⟨hret, htexts, by decide, by decide, h.1, h.2.1, h.2.2.2.2⟩

end ClaudeProxy
